import Mathlib

/-!
Verification development for `scripts/hyper_parameter_tuning.py`.

The script trains a CNN classifier on MNIST and uses an optuna study to search
over two hyperparameters (`epochs`, `learning_rate`).  This file is a shallow
embedding of the script's core: the `train` / `test` functions and the
`objective` function that a search trial invokes.

Modelling conventions:
* Python floats are embedded as exact rationals (`ℚ`); numeric literals such as
  `0.7` are read as the exact rational `7/10`.
* The external collaborators (the CNN `Net` from `plr_exercise.models.cnn`,
  which is not part of the sources here, torch autograd, the Adam optimizer's
  internal update rule, the torch RNG's shuffling) are abstracted into a
  `Hooks` record.  Per the spec, the model exposes a forward computation from
  an input to per-class log-probabilities.
* The torch global RNG is an abstract state `Rng`; `torch.manual_seed`
  overwrites it with the seed.
* I/O effects (wandb calls, console prints) are modelled as emitted values:
  a list of `SinkEvent`s and a list of `Printed` records.
* Inputs of labeled examples are identifiers `ℕ`; a labeled example is a pair
  `(input, target)`.
-/

namespace PLR

/-- The torch global RNG state, abstracted. -/
abbrev Rng := ℕ

/-- The Adam optimizer's internal state (moment estimates, step counters),
abstracted to an opaque token. -/
abbrev AdamState := ℕ

/-- One labeled example `(input, target)`: the input is an abstract identifier,
the target a class index. -/
abbrev Ex := ℕ × ℕ

/-- Per-class log-probabilities, the output of the model's forward pass. -/
abbrev LogProbs := List ℚ

/-- Helper for `argmaxIdx`: scan the tail keeping the index of the best value
seen so far (strict improvement, so ties keep the earliest index). -/
def argmaxAux : List ℚ → ℕ → ℕ → ℚ → ℕ
  | [], _, bi, _ => bi
  | x :: xs, i, bi, bv => if bv < x then argmaxAux xs (i + 1) i x else argmaxAux xs (i + 1) bi bv

/-- Index of the (first) maximal entry: `output.argmax(dim=1)` applied to one
row of per-class scores.  On the empty list it returns 0. -/
def argmaxIdx : List ℚ → ℕ
  | [] => 0
  | x :: xs => argmaxAux xs 1 0 x

/-- Split a list into consecutive batches of size `n` (the last batch may be
shorter): the batching a `torch.utils.data.DataLoader` with `batch_size := n`
and `drop_last = False` performs on its dataset. -/
def chunk (n : ℕ) (l : List α) : List (List α) :=
  if h : n = 0 ∨ l.isEmpty then [] else
    l.take n :: chunk n (l.drop n)
termination_by l.length
decreasing_by
  rw [List.length_drop]
  push_neg at h
  have hl : 0 < l.length := List.length_pos.mpr (by simpa [List.isEmpty_iff] using h.2)
  have hn : 0 < n := Nat.pos_of_ne_zero h.1
  omega

/-- A model: trainable parameters of type `P` plus the train/eval mode flag
(`model.train()` / `model.eval()`).  The forward computation is supplied by
`Hooks.forward` (the CNN `Net` lives outside the sources verified here). -/
structure Model (P : Type) where
  params : P
  training : Bool
deriving DecidableEq, Repr

/-- The external collaborators of the script, abstracted.

Modelled from the spec: the CNN `Net` (module `plr_exercise.models.cnn`, not
among the sources here) is "a classifier exposing a forward computation from
input batch to per-class log-probabilities"; torch autograd plus Adam supply
one parameter update per batch; the torchvision MNIST datasets supply the
labeled examples; the torch RNG drives weight initialization and shuffling. -/
structure Hooks (P : Type) where
  /-- Seeded weight initialization: `Net()` consumes the torch RNG. -/
  initParams : Rng → P × Rng
  /-- Forward pass of the model on one input, yielding per-class
  log-probabilities. -/
  forward : P → ℕ → LogProbs
  /-- One training step on one batch with the given learning rate:
  `loss.backward(); optimizer.step()` (autograd and Adam's update rule are
  library code). -/
  optStep : ℚ → AdamState → P → List Ex → AdamState × P
  /-- Fresh Adam internal state, as built by `optim.Adam(...)`. -/
  adamInit : AdamState
  /-- Reshuffle a dataset, consuming the torch RNG (a `DataLoader` with
  `shuffle=True` does this once per iteration pass). -/
  shuffle : Rng → List Ex → Rng × List Ex
  /-- The MNIST training split (`dataset1`). -/
  trainData : List Ex
  /-- The MNIST test split (`dataset2`). -/
  testData : List Ex

/-- Negative-log-likelihood loss of one example: `F.nll_loss(output, target)`
picks the entry of the log-probability row at the target index and negates
it. -/
def exLoss (h : Hooks P) (p : P) (e : Ex) : ℚ :=
  -((h.forward p e.1).getD e.2 0)

/-- Summed NLL loss of one batch: `F.nll_loss(output, target, reduction="sum")`. -/
def batchLossSum (h : Hooks P) (p : P) (b : List Ex) : ℚ :=
  (b.map (exLoss h p)).sum

/-- Number of correctly classified examples in one batch:
`pred = output.argmax(dim=1); correct += pred.eq(target).sum()`. -/
def batchCorrect (h : Hooks P) (p : P) (b : List Ex) : ℕ :=
  b.countP (fun e => argmaxIdx (h.forward p e.1) == e.2)

/-- Keyword arguments passed to the `DataLoader` constructors (lines 124-129).
Defaults are the `DataLoader` defaults; in particular iteration order is
unshuffled unless `shuffle` is set. -/
structure Kwargs where
  batch_size : ℕ
  num_workers : ℕ := 0
  pin_memory : Bool := false
  shuffle : Bool := false
deriving DecidableEq, Repr

/-- A data loader: the underlying dataset, the batch size, and the shuffle
flag.  Iterating it realizes a batch sequence (see `realize`). -/
structure Loader where
  dataset : List Ex
  batch_size : ℕ
  shuffle : Bool
deriving DecidableEq, Repr

/-- One iteration pass over a loader: with `shuffle=True` the dataset order is
reshuffled (consuming the torch RNG) before batching, otherwise the dataset
order is used as-is. -/
def realize (h : Hooks P) (l : Loader) (g : Rng) : List (List Ex) × Rng :=
  if l.shuffle then
    let sd := h.shuffle g l.dataset
    (chunk l.batch_size sd.2, sd.1)
  else
    (chunk l.batch_size l.dataset, g)

/-- The argument namespace built at the top of `objective` (lines 103-113). -/
structure Args where
  batch_size : ℕ
  test_batch_size : ℕ
  epochs : ℕ
  lr : ℚ
  gamma : ℚ
  no_cuda : Bool
  dry_run : Bool
  seed : Rng
  log_interval : ℕ
  save_model : Bool
deriving DecidableEq, Repr

/-- A hyperparameter proposal: the values the optuna trial's
`suggest_int("epochs", 3, 30)` and `suggest_float("learning_rate", 0, 1)`
return.  The declared bounds appear as hypotheses of the theorems below. -/
structure Proposal where
  epochs : ℕ
  learning_rate : ℚ
deriving DecidableEq, Repr

/-- The concrete `args` record `objective` fills in (lines 103-113): every
field except the two suggested hyperparameters is a fixed constant. -/
def mkArgs (t : Proposal) : Args :=
  { batch_size := 64
    test_batch_size := 1000
    epochs := t.epochs
    lr := t.learning_rate
    gamma := 7/10
    no_cuda := false
    dry_run := false
    seed := 1
    log_interval := 10
    save_model := false }

/-- `use_cuda = not args.no_cuda and torch.cuda.is_available()` (line 115). -/
def useCuda (args : Args) (cuda_available : Bool) : Bool :=
  !args.no_cuda && cuda_available

/-- The two `DataLoader` keyword-argument dicts (lines 124-129).  Note the
source updates BOTH dicts with `{"num_workers": 1, "pin_memory": True,
"shuffle": True}` exactly when `use_cuda` holds. -/
def loaderKwargs (args : Args) (use_cuda : Bool) : Kwargs × Kwargs :=
  let train_kwargs : Kwargs := { batch_size := args.batch_size }
  let test_kwargs : Kwargs := { batch_size := args.test_batch_size }
  if use_cuda then
    ({ train_kwargs with num_workers := 1, pin_memory := true, shuffle := true },
     { test_kwargs with num_workers := 1, pin_memory := true, shuffle := true })
  else
    (train_kwargs, test_kwargs)

/-- The run configuration record passed to `wandb.init` (lines 140-151). -/
structure Config where
  learning_rate : ℚ
  architecture : String
  dataset : String
  epochs : ℕ
  batch_size : ℕ
  gamma : ℚ
  seed : Rng
deriving DecidableEq, Repr

/-- The config `objective` hands to `wandb.init` for a proposal. -/
def cfgOf (t : Proposal) : Config :=
  { learning_rate := (mkArgs t).lr
    architecture := "CNN"
    dataset := "MNIST"
    epochs := (mkArgs t).epochs
    batch_size := (mkArgs t).batch_size
    gamma := (mkArgs t).gamma
    seed := (mkArgs t).seed }

/-- Events sent to the experiment-tracking sink (wandb). -/
inductive SinkEvent where
  /-- `wandb.init(project=..., config=...)` -/
  | init (cfg : Config)
  /-- `wandb.run.log_code(...)` -/
  | logCode
  /-- `wandb.log({"train_loss": v})` (line 62) -/
  | logTrain (v : ℚ)
  /-- `wandb.log({"test_loss": v})` (line 96) -/
  | logTest (v : ℚ)
  /-- `wandb.finish()` (line 163) -/
  | finish
deriving DecidableEq, Repr

/-- Is a sink event a per-epoch metric emission (`wandb.log`)? -/
def SinkEvent.isLogRecord : SinkEvent → Bool
  | .logTrain _ => true
  | .logTest _ => true
  | _ => false

/-- The values in the summary line `test` prints (lines 90-94): average loss,
correct count, total example count, percentage accuracy. -/
structure Printed where
  avg_loss : ℚ
  correct : ℕ
  total : ℕ
  accuracy_pct : ℚ
deriving DecidableEq, Repr

/-- The optimizer: the learning rate of its (single) param group plus the
abstract Adam internal state. -/
structure Optimizer where
  lr : ℚ
  adam : AdamState
deriving DecidableEq, Repr

/-- The `StepLR` learning-rate scheduler: every `step_size` calls to `step`,
multiply the optimizer's learning rate by `gamma`. -/
structure StepLR where
  step_size : ℕ
  gamma : ℚ
  last_epoch : ℕ
deriving DecidableEq, Repr

/-- `scheduler.step()`: advance the epoch counter; at multiples of
`step_size`, decay the optimizer's learning rate by `gamma`. -/
def StepLR.step (s : StepLR) (opt : Optimizer) : StepLR × Optimizer :=
  let le := s.last_epoch + 1
  ({ s with last_epoch := le },
   if le % s.step_size = 0 then { opt with lr := opt.lr * s.gamma } else opt)

/-- Result of one `train(...)` call: the updated model and optimizer, the sink
events emitted, and the RNG state after the call. -/
structure TrainOut (P : Type) where
  model : Model P
  opt : Optimizer
  sink : List SinkEvent
  rng : Rng

/-- One call of `train(args, model, device, train_loader, optimizer, epoch)`
(lines 16-62): switch the model to train mode, take one optimizer step per
batch, then recompute the aggregate training loss over the full training set
under `no_grad` and emit it to the sink.

`args.log_interval` governs only the console progress prints, which carry no
data the claims mention; the `args.dry_run` break (taken after the first batch
when set, since batch 0 always satisfies `batch_idx % log_interval == 0`) is
modelled by truncating to one batch.  The source also tallies a `correct`
count in the second pass; it is dead there and omitted. -/
def train (h : Hooks P) (args : Args) (model : Model P) (loader : Loader)
    (opt : Optimizer) (epoch : ℕ) (g : Rng) : TrainOut P :=
  let model : Model P := { model with training := true }
  let bg := realize h loader g
  let batches := if args.dry_run then bg.1.take 1 else bg.1
  let st := batches.foldl (fun st b => h.optStep opt.lr st.1 st.2 b) (opt.adam, model.params)
  let model : Model P := { model with params := st.2 }
  let opt : Optimizer := { lr := opt.lr, adam := st.1 }
  let bg2 := realize h loader bg.2
  let train_loss := (bg2.1.map (batchLossSum h model.params)).sum / (loader.dataset.length : ℚ)
  { model := model, opt := opt, sink := [.logTrain train_loss], rng := bg2.2 }

/-- Result of one `test(...)` call: the returned mean loss, the model (in eval
mode), the printed summary, the sink events emitted, and the RNG state. -/
structure TestOut (P : Type) where
  test_loss : ℚ
  model : Model P
  printed : Printed
  sink : List SinkEvent
  rng : Rng

/-- One call of `test(model, device, test_loader, epoch)` (lines 65-98):
switch the model to eval mode, sum the per-batch summed NLL losses and correct
counts under `no_grad`, divide the loss total by the dataset size, print the
summary line, emit the loss to the sink, and return the mean loss.  The
`epoch` argument is unused by the source body as well. -/
def test (h : Hooks P) (model : Model P) (loader : Loader) (epoch : ℕ)
    (g : Rng) : TestOut P :=
  let model : Model P := { model with training := false }
  let bg := realize h loader g
  let loss_sum := (bg.1.map (batchLossSum h model.params)).sum
  let correct := (bg.1.map (batchCorrect h model.params)).sum
  let n := loader.dataset.length
  let test_loss := loss_sum / (n : ℚ)
  { test_loss := test_loss
    model := model
    printed := { avg_loss := test_loss, correct := correct, total := n,
                 accuracy_pct := 100 * (correct : ℚ) / (n : ℚ) }
    sink := [.logTest test_loss]
    rng := bg.2 }

/-- Ghost trace of the epoch loop's phases, making the orchestration order of
lines 158-161 statable. -/
inductive EpochEvent where
  | trainEv (epoch : ℕ)
  | testEv (epoch : ℕ)
  | schedEv (epoch : ℕ)
deriving DecidableEq, Repr

/-- The state `objective` threads through its epoch loop. -/
structure RunState (P : Type) where
  model : Model P
  opt : Optimizer
  sched : StepLR
  test_loss : ℚ
  rng : Rng
  sink : List SinkEvent
  printed : List Printed
  events : List EpochEvent

/-- One iteration of the epoch loop (lines 158-161):
`train(...)`, then `test_loss = test(...)`, then `scheduler.step()`. -/
def epochStep (h : Hooks P) (args : Args) (train_loader test_loader : Loader)
    (s : RunState P) (epoch : ℕ) : RunState P :=
  let tr := train h args s.model train_loader s.opt epoch s.rng
  let te := test h tr.model test_loader epoch tr.rng
  let so := s.sched.step tr.opt
  { model := te.model
    opt := so.2
    sched := so.1
    test_loss := te.test_loss
    rng := te.rng
    sink := s.sink ++ (tr.sink ++ te.sink)
    printed := s.printed ++ [te.printed]
    events := s.events ++ [.trainEv epoch, .testEv epoch, .schedEv epoch] }

/-- The training `DataLoader` `objective` builds (lines 124-134). -/
def trainLoaderOf (h : Hooks P) (cuda_available : Bool) (t : Proposal) : Loader :=
  let kw := (loaderKwargs (mkArgs t) (useCuda (mkArgs t) cuda_available)).1
  { dataset := h.trainData, batch_size := kw.batch_size, shuffle := kw.shuffle }

/-- The test `DataLoader` `objective` builds (lines 125-135). -/
def testLoaderOf (h : Hooks P) (cuda_available : Bool) (t : Proposal) : Loader :=
  let kw := (loaderKwargs (mkArgs t) (useCuda (mkArgs t) cuda_available)).2
  { dataset := h.testData, batch_size := kw.batch_size, shuffle := kw.shuffle }

/-- The run state right before the epoch loop of `objective` (lines 103-157):
`torch.manual_seed(args.seed)` overwrites the ambient RNG state `g0` with the
fixed seed; then the model is freshly initialized from that RNG, a fresh Adam
optimizer is bound to it at `args.lr`, the wandb session is opened with the
run config, `test_loss` is initialized to the literal `1000000`, and a fresh
`StepLR(optimizer, step_size=1, gamma=args.gamma)` scheduler is built. -/
def initState (h : Hooks P) (cuda_available : Bool) (t : Proposal) (g0 : Rng) :
    RunState P :=
  let args := mkArgs t
  let g : Rng := args.seed
  let pg := h.initParams g
  { model := { params := pg.1, training := true }
    opt := { lr := args.lr, adam := h.adamInit }
    sched := { step_size := 1, gamma := args.gamma, last_epoch := 0 }
    test_loss := 1000000
    rng := pg.2
    sink := [.init (cfgOf t), .logCode]
    printed := []
    events := [] }

/-- The run state after `k` iterations of the epoch loop. -/
def runStateAfter (h : Hooks P) (cuda_available : Bool) (t : Proposal)
    (g0 : Rng) (k : ℕ) : RunState P :=
  (List.range k).foldl
    (epochStep h (mkArgs t) (trainLoaderOf h cuda_available t) (testLoaderOf h cuda_available t))
    (initState h cuda_available t g0)

/-- Result of one `objective(trial)` call: the returned scalar and the final
run state (whose `sink` ends with the `wandb.finish()` event). -/
structure ObjOut (P : Type) where
  ret : ℚ
  final : RunState P

/-- `objective(trial)` (lines 101-168): build `args` from the proposal, run
the epoch loop `args.epochs` times starting from the fresh run state, close
the wandb session, and return the last `test_loss`.  (`args.save_model` is
`False`, so no checkpoint is written.) -/
def objective (h : Hooks P) (cuda_available : Bool) (t : Proposal) (g0 : Rng) :
    ObjOut P :=
  let s := runStateAfter h cuda_available t g0 (mkArgs t).epochs
  { ret := s.test_loss
    final := { s with sink := s.sink ++ [.finish] } }

/-- The mean test loss the Evaluator computes in the final epoch
(`epoch = epochs - 1`) of the run: the `test(...)` result in the last
iteration of the epoch loop. -/
def finalEvalLoss (h : Hooks P) (cuda_available : Bool) (t : Proposal)
    (g0 : Rng) : ℚ :=
  let e := (mkArgs t).epochs - 1
  let s := runStateAfter h cuda_available t g0 e
  let tr := train h (mkArgs t) s.model (trainLoaderOf h cuda_available t) s.opt e s.rng
  (test h tr.model (testLoaderOf h cuda_available t) e tr.rng).test_loss

/-- The sink records epoch `e` of a run emits: the `train_loss` record of its
`train(...)` call followed by the `test_loss` record of its `test(...)` call. -/
def epochLogs (h : Hooks P) (cuda_available : Bool) (t : Proposal) (g0 : Rng)
    (e : ℕ) : List SinkEvent :=
  let s := runStateAfter h cuda_available t g0 e
  let tr := train h (mkArgs t) s.model (trainLoaderOf h cuda_available t) s.opt e s.rng
  tr.sink ++ (test h tr.model (testLoaderOf h cuda_available t) e tr.rng).sink

/-- Concrete instantiation of the external collaborators, for evaluating the
embedding on closed inputs: two training examples, one test example, a
constant forward pass yielding log-probabilities `[0, -1]`, an optimizer step
that leaves parameters unchanged, and an identity shuffle. -/
def H0 : Hooks ℕ :=
  { initParams := fun g => (0, g + 1)
    forward := fun _ _ => [0, -1]
    optStep := fun _ a p _ => (a + 1, p)
    adamInit := 0
    shuffle := fun g d => (g + 1, d)
    trainData := [(0, 0), (1, 1)]
    testData := [(0, 0)] }

/-- The epoch loop of `objective`, when the body of an iteration may raise an
exception: the exception propagates immediately (Python semantics), skipping
the remaining iterations. -/
def epochLoopE (body : ℕ → Except E Unit) : List ℕ → Except E Unit
  | [] => .ok ()
  | e :: es => (body e).bind (fun _ => epochLoopE body es)

/-- Session events of the experiment-tracking sink. -/
inductive SessionEvent where
  | openSession
  | closeSession
deriving DecidableEq, Repr

/-- Control-flow skeleton of `objective` (lines 140-168) with respect to the
wandb session, when an iteration of the epoch loop may raise an exception:
`wandb.init` runs first, then the epoch loop, then `wandb.finish()`.  The
source wraps the loop in no try/finally, so an exception propagates past the
`wandb.finish()` call: the close event is emitted only when every executed
epoch returned normally. -/
def sessionTrace (body : ℕ → Except E Unit) (epochs : ℕ) :
    List SessionEvent × Except E Unit :=
  match epochLoopE body (List.range epochs) with
  | .ok _ => ([.openSession, .closeSession], .ok ())
  | .error err => ([.openSession], .error err)

/-! ### Helper lemmas -/

theorem chunk_flatten_aux (n : ℕ) (hn : 0 < n) :
    ∀ (N : ℕ) (l : List α), l.length ≤ N → (chunk n l).flatten = l := by
  intro N
  induction N with
  | zero =>
    intro l hl
    have hnil : l = [] := List.length_eq_zero.mp (Nat.le_zero.mp hl)
    subst hnil
    rw [chunk]
    split
    · rfl
    · rename_i hcase
      exact absurd (Or.inr rfl) hcase
  | succ N ih =>
    intro l hl
    rw [chunk]
    split
    · rename_i hcase
      rcases hcase with hcase | hcase
      · omega
      · simp_all [List.isEmpty_iff]
    · rename_i hcase
      push_neg at hcase
      have hne : l ≠ [] := by simpa [List.isEmpty_iff] using hcase.2
      have hpos : 0 < l.length := List.length_pos.mpr hne
      simp only [List.flatten_cons]
      rw [ih (l.drop n) (by rw [List.length_drop]; omega)]
      exact List.take_append_drop n l

/-- Batching a list and flattening the batches gives back the list
(`DataLoader` with `drop_last = False` covers the dataset exactly). -/
theorem chunk_flatten (n : ℕ) (hn : 0 < n) (l : List α) :
    (chunk n l).flatten = l :=
  chunk_flatten_aux n hn l.length l le_rfl

theorem sum_map_sum_flatten (L : List (List Ex)) (f : Ex → ℚ) :
    (L.map (fun b => (b.map f).sum)).sum = (L.flatten.map f).sum := by
  rw [List.map_flatten, List.sum_flatten, List.map_map]
  rfl

theorem sum_map_countP_flatten (L : List (List Ex)) (p : Ex → Bool) :
    (L.map (fun b => b.countP p)).sum = L.flatten.countP p := by
  rw [List.countP_flatten]

theorem runStateAfter_succ (h : Hooks P) (c : Bool) (t : Proposal) (g : Rng) (k : ℕ) :
    runStateAfter h c t g (k + 1)
      = epochStep h (mkArgs t) (trainLoaderOf h c t) (testLoaderOf h c t)
          (runStateAfter h c t g k) k := by
  unfold runStateAfter
  rw [List.range_succ, List.foldl_append]
  rfl

theorem train_opt_lr (h : Hooks P) (a : Args) (m : Model P) (l : Loader)
    (o : Optimizer) (e : ℕ) (g : Rng) : (train h a m l o e g).opt.lr = o.lr := rfl

theorem epochStep_opt_lr (h : Hooks P) (a : Args) (tl tel : Loader)
    (s : RunState P) (e : ℕ) (hss : s.sched.step_size = 1) :
    (epochStep h a tl tel s e).opt.lr = s.opt.lr * s.sched.gamma := by
  show ((s.sched.step (train h a s.model tl s.opt e s.rng).opt).2).lr = _
  rw [StepLR.step]
  simp [hss, train_opt_lr, Nat.mod_one]

theorem runStateAfter_lr_sched (h : Hooks P) (c : Bool) (t : Proposal) (g : Rng)
    (k : ℕ) :
    (runStateAfter h c t g k).opt.lr = t.learning_rate * (7/10 : ℚ) ^ k
    ∧ (runStateAfter h c t g k).sched.step_size = 1
    ∧ (runStateAfter h c t g k).sched.gamma = 7/10 := by
  induction k with
  | zero => exact ⟨by simp [runStateAfter, initState, mkArgs], rfl, rfl⟩
  | succ k ih =>
    obtain ⟨h1, h2, h3⟩ := ih
    refine ⟨?_, ?_, ?_⟩
    · rw [runStateAfter_succ, epochStep_opt_lr _ _ _ _ _ _ h2, h1, h3, pow_succ, mul_assoc]
    · rw [runStateAfter_succ]
      exact h2
    · rw [runStateAfter_succ]
      exact h3

theorem runStateAfter_events (h : Hooks P) (c : Bool) (t : Proposal) (g : Rng)
    (k : ℕ) :
    (runStateAfter h c t g k).events
      = (List.range k).flatMap
          (fun e => [EpochEvent.trainEv e, EpochEvent.testEv e, EpochEvent.schedEv e]) := by
  induction k with
  | zero => rfl
  | succ k ih =>
    rw [runStateAfter_succ, List.range_succ, List.flatMap_append]
    show (runStateAfter h c t g k).events ++ _ = _
    rw [ih]
    simp

theorem epochStep_sink_eq (h : Hooks P) (c : Bool) (t : Proposal) (g : Rng) (k : ℕ) :
    (epochStep h (mkArgs t) (trainLoaderOf h c t) (testLoaderOf h c t)
        (runStateAfter h c t g k) k).sink
      = (runStateAfter h c t g k).sink ++ epochLogs h c t g k := rfl

theorem runStateAfter_sink (h : Hooks P) (c : Bool) (t : Proposal) (g : Rng)
    (k : ℕ) :
    (runStateAfter h c t g k).sink
      = [SinkEvent.init (cfgOf t), SinkEvent.logCode]
          ++ (List.range k).flatMap (epochLogs h c t g) := by
  induction k with
  | zero => rfl
  | succ k ih =>
    rw [runStateAfter_succ, epochStep_sink_eq, ih, List.range_succ, List.flatMap_append]
    simp

theorem flatMap_const_length (f : ℕ → List EpochEvent) (c : ℕ)
    (hf : ∀ e, (f e).length = c) (n : ℕ) :
    ((List.range n).flatMap f).length = c * n := by
  induction n with
  | zero => simp
  | succ n ih =>
    rw [List.range_succ, List.flatMap_append, List.length_append, ih]
    simp [hf]
    ring

theorem countP_flatMap_const (p : SinkEvent → Bool) (f : ℕ → List SinkEvent) (c : ℕ)
    (hf : ∀ e, (f e).countP p = c) (n : ℕ) :
    ((List.range n).flatMap f).countP p = c * n := by
  induction n with
  | zero => simp
  | succ n ih =>
    rw [List.range_succ, List.flatMap_append, List.countP_append, ih]
    simp [hf]
    ring

theorem getD_nonpos (l : List ℚ) (n : ℕ) (hl : ∀ v ∈ l, v ≤ 0) : l.getD n 0 ≤ 0 := by
  induction l generalizing n with
  | nil => simp
  | cons a as ih =>
    cases n with
    | zero => simpa using hl a (by simp)
    | succ n =>
      simp only [List.getD_cons_succ]
      exact ih n (fun v hv => hl v (List.mem_cons_of_mem _ hv))

theorem exLoss_nonneg (h : Hooks P) (p : P) (e : Ex)
    (hlog : ∀ q x, ∀ v ∈ h.forward q x, v ≤ 0) : 0 ≤ exLoss h p e := by
  unfold exLoss
  rw [neg_nonneg]
  exact getD_nonpos _ _ (hlog p e.1)

theorem test_loss_nonneg (h : Hooks P) (m : Model P) (l : Loader) (e : ℕ) (g : Rng)
    (hlog : ∀ q x, ∀ v ∈ h.forward q x, v ≤ 0) : 0 ≤ (test h m l e g).test_loss := by
  have hsum : ∀ (bs : List (List Ex)) (p : P), 0 ≤ (bs.map (batchLossSum h p)).sum := by
    intro bs p
    apply List.sum_nonneg
    intro x hx
    simp only [List.mem_map] at hx
    obtain ⟨b, _, rfl⟩ := hx
    apply List.sum_nonneg
    intro y hy
    simp only [batchLossSum, List.mem_map] at hy
    obtain ⟨ex, _, rfl⟩ := hy
    exact exLoss_nonneg h p ex hlog
  show 0 ≤ _ / _
  exact div_nonneg (hsum _ _) (by positivity)

/-! ### Claim theorems -/

/-- C1: for every hyperparameter proposal within the declared bounds
(`epochs` an integer in `[3, 30]`, `learning_rate` a real in `[0, 1)`), the
objective function returns exactly the mean test loss the Evaluator computes
in the final epoch (`epoch = epochs - 1`) of its training run — a
non-negative scalar derived from a completed Evaluator run (the model's
outputs being per-class log-probabilities, so every per-example NLL loss is
non-negative), never the `1000000` initialization or a partial value. -/
theorem objective_returns_final_eval_loss (h : Hooks P) (c : Bool) (t : Proposal)
    (g : Rng) (h3 : 3 ≤ t.epochs) (h30 : t.epochs ≤ 30)
    (hlr0 : 0 ≤ t.learning_rate) (hlr1 : t.learning_rate < 1)
    (hlog : ∀ q x, ∀ v ∈ h.forward q x, v ≤ 0) :
    (objective h c t g).ret = finalEvalLoss h c t g
    ∧ 0 ≤ (objective h c t g).ret := by
  obtain ⟨k, hk⟩ : ∃ k, t.epochs = k + 1 := ⟨t.epochs - 1, by omega⟩
  have hme : (mkArgs t).epochs = k + 1 := hk
  have hret : (objective h c t g).ret
      = (test h (train h (mkArgs t) (runStateAfter h c t g k).model (trainLoaderOf h c t)
            (runStateAfter h c t g k).opt k (runStateAfter h c t g k).rng).model
          (testLoaderOf h c t) k
          (train h (mkArgs t) (runStateAfter h c t g k).model (trainLoaderOf h c t)
            (runStateAfter h c t g k).opt k (runStateAfter h c t g k).rng).rng).test_loss := by
    show (runStateAfter h c t g (mkArgs t).epochs).test_loss = _
    rw [hme, runStateAfter_succ]
    rfl
  constructor
  · rw [hret]
    unfold finalEvalLoss
    rw [show (mkArgs t).epochs - 1 = k by omega]
  · rw [hret]
    exact test_loss_nonneg h _ _ _ _ hlog

/-- C1 witness: the theorem instantiated at the concrete collaborators `H0`
and the in-bounds proposal `epochs = 3`, `learning_rate = 1/2`. -/
theorem objective_returns_final_eval_loss_witness :
    (objective H0 false { epochs := 3, learning_rate := 1/2 } 0).ret
        = finalEvalLoss H0 false { epochs := 3, learning_rate := 1/2 } 0
    ∧ 0 ≤ (objective H0 false { epochs := 3, learning_rate := 1/2 } 0).ret :=
  objective_returns_final_eval_loss H0 false _ 0 (by norm_num) (by norm_num)
    (by norm_num) (by norm_num)
    (by
      intro q x v hv
      have hv2 : v = 0 ∨ v = -1 := by simpa [H0] using hv
      rcases hv2 with rfl | rfl <;> norm_num)

/-- C4: the training run is the state machine that, for `epoch` ranging over
`[0, epochs)` in increasing order, runs the Epoch Trainer, then the Evaluator,
then the learning-rate schedule step, with no other steps interleaved, and
executes exactly the proposal's `epochs` value many epochs. -/
theorem training_run_state_machine (h : Hooks P) (c : Bool) (t : Proposal) (g : Rng) :
    (objective h c t g).final.events
      = (List.range t.epochs).flatMap
          (fun e => [EpochEvent.trainEv e, EpochEvent.testEv e, EpochEvent.schedEv e])
    ∧ (objective h c t g).final.events.length = 3 * t.epochs := by
  have h1 : (objective h c t g).final.events
      = (List.range t.epochs).flatMap
          (fun e => [EpochEvent.trainEv e, EpochEvent.testEv e, EpochEvent.schedEv e]) := by
    show (runStateAfter h c t g (mkArgs t).epochs).events = _
    exact runStateAfter_events h c t g t.epochs
  refine ⟨h1, ?_⟩
  rw [h1]
  exact flatMap_const_length
    (fun e => [EpochEvent.trainEv e, EpochEvent.testEv e, EpochEvent.schedEv e]) 3
    (fun _ => rfl) t.epochs

/-- C5: the learning-rate schedule is a geometric decay applied exactly once
per epoch and independent of the loss trajectory (and of every collaborator):
after `k` completed epochs the optimizer's learning rate is the proposal's
initial learning rate times `0.7 ^ k` (`0.7` read as the exact rational). -/
theorem lr_geometric_decay (h : Hooks P) (c : Bool) (t : Proposal) (g : Rng)
    (k : ℕ) (hk : k ≤ t.epochs) :
    (runStateAfter h c t g k).opt.lr = t.learning_rate * (7/10 : ℚ) ^ k :=
  (runStateAfter_lr_sched h c t g k).1

/-- C5 witness: after 2 of the 3 epochs of a concrete run started at learning
rate `1/2`, the optimizer's learning rate is `1/2 * (7/10)^2`. -/
theorem lr_geometric_decay_witness :
    (runStateAfter H0 false { epochs := 3, learning_rate := 1/2 } 0 2).opt.lr
      = (1/2 : ℚ) * (7/10 : ℚ) ^ 2 :=
  lr_geometric_decay H0 false { epochs := 3, learning_rate := 1/2 } 0 2 (by norm_num)

/-- C6: for every model and evaluation loader (iterated in its unshuffled
dataset order, with a positive batch size), the Evaluator returns the mean
NLL loss — the per-example losses summed across all examples, then divided by
the total example count — counts as correct exactly the examples whose
arg-max output class equals the target, and prints the loss, the correct
count, the total count, and the percentage accuracy. -/
theorem evaluator_mean_loss_and_accuracy (h : Hooks P) (m : Model P) (l : Loader)
    (e : ℕ) (g : Rng) (hsh : l.shuffle = false) (hb : 0 < l.batch_size) :
    (test h m l e g).test_loss
        = (l.dataset.map (exLoss h m.params)).sum / (l.dataset.length : ℚ)
    ∧ (test h m l e g).printed.correct
        = l.dataset.countP (fun ex => argmaxIdx (h.forward m.params ex.1) == ex.2)
    ∧ (test h m l e g).printed
        = { avg_loss := (test h m l e g).test_loss
            correct := (test h m l e g).printed.correct
            total := l.dataset.length
            accuracy_pct :=
              100 * (((test h m l e g).printed.correct : ℚ)) / (l.dataset.length : ℚ) } := by
  have hre : realize h l g = (chunk l.batch_size l.dataset, g) := by
    simp [realize, hsh]
  refine ⟨?_, ?_, rfl⟩
  · show ((realize h l g).1.map (batchLossSum h m.params)).sum / (l.dataset.length : ℚ) = _
    rw [hre]
    have := sum_map_sum_flatten (chunk l.batch_size l.dataset) (exLoss h m.params)
    rw [show batchLossSum h m.params = fun b => (b.map (exLoss h m.params)).sum from rfl,
      this, chunk_flatten _ hb]
  · show ((realize h l g).1.map (batchCorrect h m.params)).sum = _
    rw [hre]
    have := sum_map_countP_flatten (chunk l.batch_size l.dataset)
      (fun ex => argmaxIdx (h.forward m.params ex.1) == ex.2)
    rw [show batchCorrect h m.params
        = fun b => b.countP (fun ex => argmaxIdx (h.forward m.params ex.1) == ex.2) from rfl,
      this, chunk_flatten _ hb]

/-- C6 witness: the theorem instantiated at the concrete collaborators `H0`,
a two-example unshuffled loader and the initial parameters. -/
theorem evaluator_mean_loss_and_accuracy_witness :
    (test H0 { params := 0, training := true }
        { dataset := [(0, 0), (1, 1)], batch_size := 2, shuffle := false } 0 7).test_loss
        = (([(0, 0), (1, 1)] : List Ex).map (exLoss H0 0)).sum / ((2 : ℕ) : ℚ)
    ∧ (test H0 { params := 0, training := true }
        { dataset := [(0, 0), (1, 1)], batch_size := 2, shuffle := false } 0 7).printed.correct
        = ([(0, 0), (1, 1)] : List Ex).countP (fun ex => argmaxIdx (H0.forward 0 ex.1) == ex.2) := by
  have h := evaluator_mean_loss_and_accuracy H0 { params := 0, training := true }
    { dataset := [(0, 0), (1, 1)], batch_size := 2, shuffle := false } 0 7 rfl (by norm_num)
  exact ⟨h.1, h.2.1⟩

/-- C7: the Evaluator never mutates model parameters and takes no optimizer:
the model it returns carries exactly the parameters it was given (only the
train/eval mode flag changes), and in an epoch step the optimizer that
reaches the scheduler is exactly the one the Epoch Trainer produced — the
Evaluator plays no part in it. -/
theorem evaluator_preserves_params (h : Hooks P) (m : Model P) (l : Loader)
    (e : ℕ) (g : Rng) :
    (test h m l e g).model.params = m.params
    ∧ ∀ (a : Args) (tl tel : Loader) (s : RunState P) (e2 : ℕ),
        (epochStep h a tl tel s e2).opt
          = (s.sched.step (train h a s.model tl s.opt e2 s.rng).opt).2 :=
  ⟨rfl, fun _ _ _ _ _ => rfl⟩

/-- C8: two objective invocations given the same proposal produce identical
trial outcomes: `torch.manual_seed(args.seed)` overwrites the ambient torch
RNG state at the start of every invocation, and the model, optimizer and
schedule are freshly constructed inside the call, so the result does not
depend on the incoming RNG state at all. -/
theorem objective_reproducible (h : Hooks P) (c : Bool) (t : Proposal)
    (g1 g2 : Rng) :
    objective h c t g1 = objective h c t g2 := rfl

/-- C10: with `epochs = 0` (outside the suggested lower bound of 3) the epoch
loop executes zero times, no Evaluator run happens, and the objective returns
the hard-coded initialization value `1000000`. -/
theorem zero_epochs_returns_default (h : Hooks P) (c : Bool) (lr : ℚ) (g : Rng) :
    (objective h c { epochs := 0, learning_rate := lr } g).ret = 1000000
    ∧ (objective h c { epochs := 0, learning_rate := lr } g).final.events = [] :=
  ⟨rfl, rfl⟩

/-- C2 counterexample: with an epoch body that raises at epoch 0, the session
trace of a 3-epoch objective invocation contains no close event — the claim
that the sink session is closed on every exit path fails on the exception
path. -/
theorem session_not_closed_on_exception :
    SessionEvent.closeSession ∉ (sessionTrace (fun _ => (Except.error 0 : Except ℕ Unit)) 3).1
    ∧ (sessionTrace (fun _ => (Except.error 0 : Except ℕ Unit)) 3).2 = Except.error 0 :=
  ⟨by decide, rfl⟩

/-- C2 amended: every objective invocation opens exactly one sink session at
its start; the session is explicitly closed at the end of the normal path
regardless of how many epochs ran, but when an epoch raises an exception the
close is skipped (there is no try/finally) and the exception propagates. -/
theorem session_closed_on_success_only (body : ℕ → Except E Unit) (epochs : ℕ) :
    (epochLoopE body (List.range epochs) = Except.ok () →
        sessionTrace body epochs
          = ([SessionEvent.openSession, SessionEvent.closeSession], Except.ok ()))
    ∧ (∀ err, epochLoopE body (List.range epochs) = Except.error err →
        (sessionTrace body epochs).1 = [SessionEvent.openSession]) := by
  constructor
  · intro hok
    simp [sessionTrace, hok]
  · intro err herr
    simp [sessionTrace, herr]

/-- C2 amended witness: a 5-epoch run whose epochs all return normally opens
and then closes the session. -/
theorem session_closed_on_success_only_witness :
    sessionTrace (E := ℕ) (fun _ => Except.ok ()) 5
      = ([SessionEvent.openSession, SessionEvent.closeSession], Except.ok ()) :=
  (session_closed_on_success_only (fun _ => Except.ok ()) 5).1 rfl

/-- C3 counterexample: without CUDA the training loader is NOT shuffled, and
with CUDA the evaluation loader IS shuffled — both halves of the claim
(training always shuffled, evaluation never shuffled) fail on concrete
configurations. -/
theorem shuffle_claim_false :
    (loaderKwargs (mkArgs { epochs := 3, learning_rate := 1/2 }) false).1.shuffle = false
    ∧ (loaderKwargs (mkArgs { epochs := 3, learning_rate := 1/2 }) true).2.shuffle = true :=
  ⟨rfl, rfl⟩

/-- C3 amended: shuffling is tied to CUDA availability, not to the
train/evaluation role: without CUDA neither loader shuffles (both iterate in
fixed dataset order), and with CUDA the `cuda_kwargs` update sets
`shuffle=True` on both the training and the evaluation loader. -/
theorem shuffle_follows_cuda (args : Args) :
    ((loaderKwargs args false).1.shuffle = false
      ∧ (loaderKwargs args false).2.shuffle = false)
    ∧ ((loaderKwargs args true).1.shuffle = true
      ∧ (loaderKwargs args true).2.shuffle = true)
    ∧ (∀ (Q : Type) (h : Hooks Q) (t : Proposal) (c : Bool),
        (trainLoaderOf h c t).shuffle = c ∧ (testLoaderOf h c t).shuffle = c) := by
  refine ⟨⟨rfl, rfl⟩, ⟨rfl, rfl⟩, ?_⟩
  intro Q h t c
  cases c <;> exact ⟨rfl, rfl⟩

/-- C9 counterexample: a concrete full run with `epochs = 3` emits 6 metric
records to the sink (one `train_loss` and one `test_loss` record per epoch),
not 3 — and the records carry only a loss value, no epoch index and no
accuracy (see `SinkEvent`). -/
theorem metric_record_count_not_epochs :
    ((objective H0 false { epochs := 3, learning_rate := 1/2 } 0).final.sink.countP
        SinkEvent.isLogRecord) = 6
    ∧ ((objective H0 false { epochs := 3, learning_rate := 1/2 } 0).final.sink.countP
        SinkEvent.isLogRecord) ≠ 3 := by
  constructor <;> decide

/-- C9 amended: a full run with `epochs = E` emits exactly `2 * E` metric
records to the sink, two per epoch in increasing epoch order — first the
epoch's `train_loss` record, then its `test_loss` record — bracketed by the
session-open (with the run config) and session-close events; each record
carries only a loss value (no epoch index, no accuracy field). -/
theorem sink_record_stream (h : Hooks P) (c : Bool) (t : Proposal) (g : Rng) :
    (objective h c t g).final.sink
      = [SinkEvent.init (cfgOf t), SinkEvent.logCode]
          ++ (List.range t.epochs).flatMap (epochLogs h c t g)
          ++ [SinkEvent.finish]
    ∧ (∀ e, ∃ a b, epochLogs h c t g e = [SinkEvent.logTrain a, SinkEvent.logTest b])
    ∧ (objective h c t g).final.sink.countP SinkEvent.isLogRecord = 2 * t.epochs := by
  have h1 : (objective h c t g).final.sink
      = [SinkEvent.init (cfgOf t), SinkEvent.logCode]
          ++ (List.range t.epochs).flatMap (epochLogs h c t g)
          ++ [SinkEvent.finish] := by
    show (runStateAfter h c t g (mkArgs t).epochs).sink ++ [SinkEvent.finish] = _
    rw [runStateAfter_sink]
    rfl
  refine ⟨h1, fun e => ⟨_, _, rfl⟩, ?_⟩
  rw [h1]
  simp only [List.countP_append]
  rw [countP_flatMap_const SinkEvent.isLogRecord (epochLogs h c t g) 2 (fun _ => rfl) t.epochs]
  simp [SinkEvent.isLogRecord]

end PLR
